import Mathlib

/-!
Verification of the Verlet particle simulation (`verlet/src/main.rs`).

The embedding uses exact rationals (`ℚ`) in place of `f32`.  The square-root
primitive `f32::sqrt` has no exact rational counterpart, so every function
that the source routes through `Vec2::len` / `f32::sqrt` takes the square
root as an oracle parameter `sqrtQ : ℚ → ℚ`; theorems that depend on the
meaning of the square root assume its defining equations only at the values
where the source actually calls it.
-/

/-- Modelled from the spec: `Vector2`, the 2D vector value type of the
`utils` crate (the crate is not under `src/`; the spec describes it as plain
componentwise arithmetic: add, subtract, scalar multiply/divide, length). -/
@[ext]
structure Vec2 where
  x : ℚ
  y : ℚ
deriving DecidableEq

/-- Modelled from the spec: `Vec2::zero()`. -/
def Vec2.zero : Vec2 := ⟨0, 0⟩

instance : Add Vec2 := ⟨fun a b => ⟨a.x + b.x, a.y + b.y⟩⟩

instance : Sub Vec2 := ⟨fun a b => ⟨a.x - b.x, a.y - b.y⟩⟩

instance : Neg Vec2 := ⟨fun a => ⟨-a.x, -a.y⟩⟩

instance : HMul Vec2 ℚ Vec2 := ⟨fun a s => ⟨a.x * s, a.y * s⟩⟩

instance : HDiv Vec2 ℚ Vec2 := ⟨fun a s => ⟨a.x / s, a.y / s⟩⟩

@[simp] theorem Vec2.add_x (a b : Vec2) : (a + b).x = a.x + b.x := rfl

@[simp] theorem Vec2.add_y (a b : Vec2) : (a + b).y = a.y + b.y := rfl

@[simp] theorem Vec2.sub_x (a b : Vec2) : (a - b).x = a.x - b.x := rfl

@[simp] theorem Vec2.sub_y (a b : Vec2) : (a - b).y = a.y - b.y := rfl

@[simp] theorem Vec2.neg_x (a : Vec2) : (-a).x = -a.x := rfl

@[simp] theorem Vec2.neg_y (a : Vec2) : (-a).y = -a.y := rfl

@[simp] theorem Vec2.smul_x (a : Vec2) (s : ℚ) : (a * s).x = a.x * s := rfl

@[simp] theorem Vec2.smul_y (a : Vec2) (s : ℚ) : (a * s).y = a.y * s := rfl

@[simp] theorem Vec2.sdiv_x (a : Vec2) (s : ℚ) : (a / s).x = a.x / s := rfl

@[simp] theorem Vec2.sdiv_y (a : Vec2) (s : ℚ) : (a / s).y = a.y / s := rfl

@[simp] theorem Vec2.zero_x : Vec2.zero.x = 0 := rfl

@[simp] theorem Vec2.zero_y : Vec2.zero.y = 0 := rfl

/-- Squared length `v.x * v.x + v.y * v.y`, as written inline in
`solve_collisions` and implicitly inside `Vec2::len`. -/
def Vec2.len2 (a : Vec2) : ℚ := a.x * a.x + a.y * a.y

/-- Modelled from the spec: `Vec2::len()`, i.e. the square root of the
squared length; the square root itself is the oracle parameter. -/
def Vec2.len (sqrtQ : ℚ → ℚ) (a : Vec2) : ℚ := sqrtQ (Vec2.len2 a)

/-- Opaque visual tag standing in for `nannou::color::Rgb8`; `STEELBLUE` is
its only value the source uses (0x4682B4). -/
def STEELBLUE : ℕ := 4620980

/-- The `Particle` struct of `main.rs` (lines 9–16). -/
structure Particle where
  pos : Vec2
  pos_last : Vec2
  acc : Vec2
  radius : ℚ
  color : ℕ
deriving DecidableEq

/-- `Particle::new` (lines 19–27): both positions at `pos`, zero
accumulator, default radius 20, steel-blue tag. -/
def Particle.new (p : Vec2) : Particle :=
  { pos := p, pos_last := p, acc := Vec2.zero, radius := 20, color := STEELBLUE }

/-- `Particle::update` (lines 29–34): the Verlet step.  `delta` is computed
from the old `pos_last` before `pos_last` is overwritten. -/
def Particle.update (p : Particle) (dt : ℚ) : Particle :=
  let delta := p.pos - p.pos_last
  { p with
    pos_last := p.pos
    pos := p.pos + (delta + p.acc * dt * dt)
    acc := Vec2.zero }

/-- `Particle::accelerate` (lines 36–38). -/
def Particle.accelerate (p : Particle) (a : Vec2) : Particle :=
  { p with acc := p.acc + a }

/-- `Particle::set_velocity` (lines 40–42): the body's effect on the
by-value `self` (the local copy the caller never sees). -/
def Particle.set_velocity (p : Particle) (v : Vec2) (dt : ℚ) : Particle :=
  { p with pos_last := p.pos - v * dt }

/-- `Particle::add_velocity` (lines 44–46): the body's effect on the
by-value `self`. -/
def Particle.add_velocity (p : Particle) (v : Vec2) (dt : ℚ) : Particle :=
  { p with pos_last := p.pos_last - v * dt }

/-- `Particle::velocity` (lines 48–50). -/
def Particle.velocity (p : Particle) (dt : ℚ) : Vec2 :=
  (p.pos - p.pos_last) / dt

/-- Rust call semantics of `set_velocity` on a stored particle: `self` is
taken by value (a clone, since the particle cannot be moved out of the
vector), the mutated copy is dropped, nothing is returned, so the store is
returned untouched. -/
def call_set_velocity (store : List Particle) (i : ℕ) (v : Vec2) (dt : ℚ) :
    List Particle :=
  let _dropped := (store[i]?).map (fun p => p.set_velocity v dt)
  store

/-- Rust call semantics of `add_velocity` on a stored particle, as in
`call_set_velocity`. -/
def call_add_velocity (store : List Particle) (i : ℕ) (v : Vec2) (dt : ℚ) :
    List Particle :=
  let _dropped := (store[i]?).map (fun p => p.add_velocity v dt)
  store

/-- The `Model` struct of `main.rs` (lines 53–59); `SystemTime` is modelled
as a millisecond count. -/
structure Model where
  particles : List Particle
  gravity : Vec2
  center : Vec2
  last_push : ℕ
  mouse_pressed : Bool
deriving DecidableEq

/-- `Model::apply_gravity` (lines 62–66). -/
def Model.apply_gravity (m : Model) : Model :=
  { m with particles := m.particles.map (fun p => p.accelerate m.gravity) }

/-- `Model::update` (lines 67–71): integrate every particle. -/
def Model.update (m : Model) (dt : ℚ) : Model :=
  { m with particles := m.particles.map (fun p => p.update dt) }

/-- The `constraint_radius` local of `Model::apply_constraints` (line 75). -/
def constraint_radius : ℚ := 300

/-- Per-particle body of the `apply_constraints` loop (lines 77–84). -/
def Model.constrain (sqrtQ : ℚ → ℚ) (c : Vec2) (p : Particle) : Particle :=
  let v := c - p.pos
  let dist := Vec2.len sqrtQ v
  if dist > constraint_radius - p.radius then
    { p with pos := c - (v / dist) * (constraint_radius - p.radius) }
  else p

/-- `Model::apply_constraints` (lines 73–85). -/
def Model.apply_constraints (sqrtQ : ℚ → ℚ) (m : Model) : Model :=
  { m with particles := m.particles.map (Model.constrain sqrtQ m.center) }

/-- The `response_coef` local of `Model::solve_collisions` (line 88). -/
def response_coef : ℚ := 4 / 5

/-- Inner loop of `solve_collisions` (lines 91–106) for a fixed outer index
`i`: `o1` is the clone of `particles[i]` taken once before the inner loop
(so it is NOT refreshed while `particles[i]` receives corrections), `cur`
is the live value of `particles[i]`, and the list argument is
`particles[i+1..]` in index order.  Returns the final `particles[i]` and
the updated tail. -/
def collide_inner (sqrtQ : ℚ → ℚ) (o1 : Particle) (cur : Particle) :
    List Particle → Particle × List Particle
  | [] => (cur, [])
  | o2 :: rest =>
    let v := o1.pos - o2.pos
    let dist2 := v.x * v.x + v.y * v.y
    let min_dist := o1.radius + o2.radius + 2
    if dist2 < min_dist * min_dist then
      let dist := sqrtQ dist2
      let n := v / dist
      let mass_ratio_1 := o1.radius / (o1.radius + o2.radius)
      let mass_ratio_2 := o2.radius / (o1.radius + o2.radius)
      let delta := (1 / 2 : ℚ) * response_coef * (dist - min_dist)
      let res := collide_inner sqrtQ o1
        { cur with pos := cur.pos - n * (mass_ratio_2 * delta) } rest
      (res.1, { o2 with pos := o2.pos + n * (mass_ratio_1 * delta) } :: res.2)
    else
      let res := collide_inner sqrtQ o1 cur rest
      (res.1, o2 :: res.2)

/-- Outer loop of `solve_collisions` (line 89): `for i in 0..len`, with a
fuel argument standing for the number of remaining indices (the inner loop
preserves the tail's length, so fuel `l.length` runs every index exactly
once, as the source's indexed loop does). -/
def collide_outer (sqrtQ : ℚ → ℚ) : ℕ → List Particle → List Particle
  | 0, l => l
  | _ + 1, [] => []
  | n + 1, p :: rest =>
    let res := collide_inner sqrtQ p p rest
    res.1 :: collide_outer sqrtQ n res.2

/-- `Model::solve_collisions` (lines 87–108). -/
def Model.solve_collisions (sqrtQ : ℚ → ℚ) (m : Model) : Model :=
  { m with particles := collide_outer sqrtQ m.particles.length m.particles }

/-- Mirror of `collide_inner` that reports, instead of the corrected
particles, whether some executed division `v / dist` (line 98) had a zero
divisor: the division runs exactly when `dist2 < min_dist * min_dist`, and
its divisor is `sqrtQ dist2`.  The comparisons only read `o1` (the stale
snapshot) and the untouched tail elements, so no position threading is
needed within one inner loop. -/
def collide_inner_zero_div (sqrtQ : ℚ → ℚ) (o1 : Particle) :
    List Particle → Bool
  | [] => false
  | o2 :: rest =>
    let v := o1.pos - o2.pos
    let dist2 := v.x * v.x + v.y * v.y
    let min_dist := o1.radius + o2.radius + 2
    (decide (dist2 < min_dist * min_dist) && decide (sqrtQ dist2 = 0)) ||
      collide_inner_zero_div sqrtQ o1 rest

/-- Mirror of `collide_outer` for the zero-divisor check; positions are
threaded between outer iterations exactly as `solve_collisions` threads
them. -/
def collide_outer_zero_div (sqrtQ : ℚ → ℚ) : ℕ → List Particle → Bool
  | 0, _ => false
  | _ + 1, [] => false
  | n + 1, p :: rest =>
    collide_inner_zero_div sqrtQ p rest ||
      collide_outer_zero_div sqrtQ n (collide_inner sqrtQ p p rest).2

/-- Whether one `solve_collisions` pass on `m` executes a division by zero
at the `v / dist` site. -/
def Model.solve_collisions_zero_div (sqrtQ : ℚ → ℚ) (m : Model) : Bool :=
  collide_outer_zero_div sqrtQ m.particles.length m.particles

/-- Divisor safety predicate for the `v / dist` site of `apply_constraints`
(line 81): the division is executed only for particles satisfying the clamp
condition of line 80, and for those its divisor must be nonzero. -/
def Model.constraint_divisor_ok (sqrtQ : ℚ → ℚ) (m : Model) : Prop :=
  ∀ p ∈ m.particles,
    Vec2.len sqrtQ (m.center - p.pos) > constraint_radius - p.radius →
      Vec2.len sqrtQ (m.center - p.pos) ≠ 0

/-- Spawn block at the top of the host `update` callback (lines 154–163):
the wall clock is the `nowMs` argument, `elapsed` uses truncated natural
subtraction, and the spawn position is `center + (100, 200)`. -/
def Model.spawn_step (nowMs : ℕ) (m : Model) : Model :=
  if 500 < nowMs - m.last_push ∧ m.particles.length < 20 then
    { m with
      particles :=
        m.particles ++ [Particle.new ⟨m.center.x + 100, m.center.y + 200⟩]
      last_push := nowMs }
  else m

/-- The host `update` callback (lines 153–171): spawn check, then gravity,
collisions, boundary constraint, integration, in that order. -/
def update (sqrtQ : ℚ → ℚ) (nowMs : ℕ) (dt : ℚ) (m : Model) : Model :=
  let m1 := Model.spawn_step nowMs m
  let m2 := m1.apply_gravity
  let m3 := Model.solve_collisions sqrtQ m2
  let m4 := Model.apply_constraints sqrtQ m3
  m4.update dt

theorem collide_inner_len (sqrtQ : ℚ → ℚ) (o1 : Particle) :
    ∀ (l : List Particle) (cur : Particle),
      ((collide_inner sqrtQ o1 cur l).2).length = l.length := by
  intro l
  induction l with
  | nil => intro cur; rfl
  | cons o2 rest ih =>
    intro cur
    simp only [collide_inner]
    split
    · simp [ih]
    · simp [ih]

theorem collide_outer_len (sqrtQ : ℚ → ℚ) :
    ∀ (n : ℕ) (l : List Particle),
      (collide_outer sqrtQ n l).length = l.length := by
  intro n
  induction n with
  | zero => intro l; rfl
  | succ k ih =>
    intro l
    cases l with
    | nil => rfl
    | cons p rest =>
      simp only [collide_outer, List.length_cons]
      rw [ih, collide_inner_len]

theorem spawn_step_le (nowMs : ℕ) (m : Model)
    (h : m.particles.length ≤ 20) :
    (Model.spawn_step nowMs m).particles.length ≤ 20 := by
  unfold Model.spawn_step
  split
  · next hc => simp; omega
  · exact h

theorem update_preserves_len (sqrtQ : ℚ → ℚ) (nowMs : ℕ) (dt : ℚ)
    (m : Model) :
    (update sqrtQ nowMs dt m).particles.length =
      (Model.spawn_step nowMs m).particles.length := by
  simp [update, Model.update, Model.apply_constraints, Model.solve_collisions,
    Model.apply_gravity, collide_outer_len]

/-- Claim C1: `Particle::update` performs exactly the Verlet step — the new
`pos_last` is the old `pos`, the new `pos` is the old `pos` plus the old
delta plus `acc * dt * dt`, the accumulator is exactly zero afterwards, and
a second update with no intervening `accelerate` therefore adds a zero
acceleration term. -/
theorem particle_update_verlet (p : Particle) (dt : ℚ) :
    (p.update dt).pos_last = p.pos ∧
    (p.update dt).pos = p.pos + ((p.pos - p.pos_last) + p.acc * dt * dt) ∧
    (p.update dt).acc = Vec2.zero ∧
    ((p.update dt).update dt).pos =
      (p.update dt).pos +
        (((p.update dt).pos - (p.update dt).pos_last) + Vec2.zero * dt * dt) :=
  ⟨rfl, rfl, rfl, rfl⟩

/-- Claim C2: one tick of the host `update` callback is the spawn check
followed by exactly the four phases — gravity accumulation, one collision
pass, boundary constraint, per-particle Verlet integration — composed in
that order. -/
theorem update_phase_order (sqrtQ : ℚ → ℚ) (nowMs : ℕ) (dt : ℚ) (m : Model) :
    update sqrtQ nowMs dt m =
      Model.update
        (Model.apply_constraints sqrtQ
          (Model.solve_collisions sqrtQ
            (Model.apply_gravity (Model.spawn_step nowMs m)))) dt := rfl

/-- Claim C7: `set_velocity` and `add_velocity` take `self` by value, so a
call on a stored particle leaves the store unchanged for every index,
velocity and `dt`; the mutation happens only on the dropped local copy,
whose `pos_last` the last two conjuncts exhibit. -/
theorem set_velocity_no_caller_effect (store : List Particle) (i : ℕ)
    (p : Particle) (v : Vec2) (dt : ℚ) :
    call_set_velocity store i v dt = store ∧
    call_add_velocity store i v dt = store ∧
    (p.set_velocity v dt).pos_last = p.pos - v * dt ∧
    (p.add_velocity v dt).pos_last = p.pos_last - v * dt :=
  ⟨rfl, rfl, rfl, rfl⟩

/-- Claim C9: `apply_gravity` adds the gravity vector to every particle's
accumulator (leaving position, previous position, radius and visual tag of
each particle untouched, as the record update shows) and changes no other
field of the model. -/
theorem apply_gravity_only_acc (m : Model) :
    (m.apply_gravity).particles =
      m.particles.map (fun p => { p with acc := p.acc + m.gravity }) ∧
    (m.apply_gravity).gravity = m.gravity ∧
    (m.apply_gravity).center = m.center ∧
    (m.apply_gravity).last_push = m.last_push ∧
    (m.apply_gravity).mouse_pressed = m.mouse_pressed :=
  ⟨rfl, rfl, rfl, rfl, rfl⟩

/-- Claim C6: a spawn request at the cap (20 particles) leaves the particle
collection unchanged (silent no-op); a request below the cap with the timer
elapsed appends one particle built by `Particle::new` — which places it at
the given position with the default radius 20 and a zero accumulator — and
so the count never exceeds 20 across any sequence of spawn requests, nor
across a full host `update` tick. -/
theorem spawn_cap (sqrtQ : ℚ → ℚ) (nowMs : ℕ) (dt : ℚ) (m : Model)
    (reqs : List ℕ) :
    (m.particles.length ≤ 20 →
      (Model.spawn_step nowMs m).particles.length ≤ 20) ∧
    (20 ≤ m.particles.length →
      (Model.spawn_step nowMs m).particles = m.particles) ∧
    (500 < nowMs - m.last_push → m.particles.length < 20 →
      (Model.spawn_step nowMs m).particles =
        m.particles ++ [Particle.new ⟨m.center.x + 100, m.center.y + 200⟩]) ∧
    (∀ q : Vec2, (Particle.new q).pos = q ∧ (Particle.new q).radius = 20 ∧
      (Particle.new q).acc = Vec2.zero) ∧
    (m.particles.length ≤ 20 →
      ((reqs.foldl (fun s t => Model.spawn_step t s) m).particles.length ≤ 20)) ∧
    (m.particles.length ≤ 20 →
      (update sqrtQ nowMs dt m).particles.length ≤ 20) := by
  refine ⟨spawn_step_le nowMs m, ?_, ?_, fun q => ⟨rfl, rfl, rfl⟩, ?_, ?_⟩
  · intro h
    unfold Model.spawn_step
    split
    · next hc => omega
    · rfl
  · intro ht hlen
    unfold Model.spawn_step
    split
    · rfl
    · next hc => exact absurd ⟨ht, hlen⟩ hc
  · intro h
    induction reqs generalizing m with
    | nil => exact h
    | cons t ts ih => exact ih _ (spawn_step_le t m h)
  · intro h
    rw [update_preserves_len]
    exact spawn_step_le nowMs m h

/-- Witness for C6: from the empty model a timed spawn request appends one
default particle; a model already holding 20 particles is left unchanged;
repeated requests stay at or below the cap. -/
theorem spawn_cap_witness :
    (Model.spawn_step 1000
        { particles := [], gravity := ⟨0, -1000⟩, center := ⟨0, 0⟩,
          last_push := 0, mouse_pressed := false }).particles =
      [] ++ [Particle.new ⟨(0 : ℚ) + 100, (0 : ℚ) + 200⟩] ∧
    (Model.spawn_step 1000
        { particles := List.replicate 20 (Particle.new ⟨0, 0⟩),
          gravity := ⟨0, -1000⟩, center := ⟨0, 0⟩, last_push := 0,
          mouse_pressed := false }).particles =
      List.replicate 20 (Particle.new ⟨0, 0⟩) ∧
    (([1000, 2000, 3000].foldl (fun s t => Model.spawn_step t s)
        { particles := [], gravity := ⟨0, -1000⟩, center := ⟨0, 0⟩,
          last_push := 0, mouse_pressed := false }).particles.length ≤ 20) :=
  ⟨(spawn_cap (fun q => q) 1000 0 _ []).2.2.1 (by decide) (by decide),
   (spawn_cap (fun q => q) 1000 0 _ []).2.1 (by decide),
   (spawn_cap (fun q => q) 1000 0 _ [1000, 2000, 3000]).2.2.2.2.1 (by decide)⟩

/-- Claim C10: in `apply_constraints` the division `v / dist` never has a
zero divisor for particles of radius below the boundary radius 300: the
division is reached only under the clamp condition
`dist > 300 - radius`, and `300 - radius > 0` then forces `dist > 0`. -/
theorem apply_constraints_no_div_by_zero (sqrtQ : ℚ → ℚ) (m : Model)
    (hr : ∀ p ∈ m.particles, p.radius < constraint_radius) :
    Model.constraint_divisor_ok sqrtQ m := by
  intro p hp h
  have h300 : (0 : ℚ) < constraint_radius - p.radius :=
    sub_pos.mpr (hr p hp)
  exact ne_of_gt (lt_trans h300 h)

/-- Witness for C10: a concrete one-particle model whose particle has the
default radius 20 < 300 satisfies the divisor-safety predicate. -/
theorem apply_constraints_no_div_by_zero_witness :
    Model.constraint_divisor_ok (fun q => q)
      { particles := [Particle.new ⟨1, 2⟩], gravity := ⟨0, -1000⟩,
        center := ⟨0, 0⟩, last_push := 0, mouse_pressed := false } :=
  apply_constraints_no_div_by_zero (fun q => q) _ (by decide)

theorem update_delta_of_acc_zero (q : Particle) (dt : ℚ)
    (h : q.acc = Vec2.zero) :
    (q.update dt).pos - (q.update dt).pos_last = q.pos - q.pos_last := by
  ext <;> simp [Particle.update, h]

theorem update_pos_shift (q : Particle) (dt : ℚ)
    (h : q.acc = Vec2.zero) :
    (q.update dt).pos - q.pos = q.pos - q.pos_last := by
  ext <;> simp [Particle.update, h]

theorem update_iterate_delta (dt : ℚ) (p : Particle) (h : p.acc = Vec2.zero)
    (n : ℕ) :
    ((fun r => Particle.update r dt)^[n] p).acc = Vec2.zero ∧
    ((fun r => Particle.update r dt)^[n] p).pos -
        ((fun r => Particle.update r dt)^[n] p).pos_last =
      p.pos - p.pos_last := by
  induction n with
  | zero => exact ⟨h, rfl⟩
  | succ k ih =>
    obtain ⟨ha, hd⟩ := ih
    rw [Function.iterate_succ_apply']
    exact ⟨rfl, by rw [update_delta_of_acc_zero _ dt ha, hd]⟩

/-- Claim C8: with a zero accumulator and zero acceleration throughout,
repeated Verlet steps translate the particle by the same displacement each
tick, and `velocity(dt)` is the same after every tick. -/
theorem ballistic_consistency (p : Particle) (dt : ℚ) (n : ℕ)
    (h : p.acc = Vec2.zero) :
    ((fun r => Particle.update r dt)^[n + 1] p).pos -
        ((fun r => Particle.update r dt)^[n] p).pos = p.pos - p.pos_last ∧
    ((fun r => Particle.update r dt)^[n] p).velocity dt = p.velocity dt := by
  obtain ⟨ha, hd⟩ := update_iterate_delta dt p h n
  constructor
  · rw [Function.iterate_succ_apply', update_pos_shift _ dt ha, hd]
  · simp only [Particle.velocity, hd]

/-- Concrete particle for the C8 witness. -/
def ballParticle : Particle :=
  { pos := ⟨3, 4⟩, pos_last := ⟨1, 1⟩, acc := ⟨0, 0⟩, radius := 20,
    color := STEELBLUE }

/-- Witness for C8: two then three unit-dt steps of a concrete inertial
particle keep both the per-tick displacement and the derived velocity. -/
theorem ballistic_consistency_witness :
    ((fun r => Particle.update r 1)^[3] ballParticle).pos -
        ((fun r => Particle.update r 1)^[2] ballParticle).pos =
      ballParticle.pos - ballParticle.pos_last ∧
    ((fun r => Particle.update r 1)^[2] ballParticle).velocity 1 =
      ballParticle.velocity 1 :=
  ballistic_consistency ballParticle 1 2 rfl

theorem constrain_len2_le (sqrtQ : ℚ → ℚ) (c : Vec2) (p : Particle)
    (hr : p.radius < constraint_radius)
    (hsq : sqrtQ (Vec2.len2 (c - p.pos)) * sqrtQ (Vec2.len2 (c - p.pos)) =
      Vec2.len2 (c - p.pos))
    (hnn : 0 ≤ sqrtQ (Vec2.len2 (c - p.pos))) :
    Vec2.len2 (c - (Model.constrain sqrtQ c p).pos) ≤
      (constraint_radius - p.radius) * (constraint_radius - p.radius) := by
  simp only [Model.constrain, Vec2.len]
  by_cases hgt : sqrtQ (Vec2.len2 (c - p.pos)) > constraint_radius - p.radius
  · rw [if_pos hgt]
    have hs0 : (0 : ℚ) < constraint_radius - p.radius := sub_pos.mpr hr
    have hd0 : (0 : ℚ) < sqrtQ (Vec2.len2 (c - p.pos)) := lt_trans hs0 hgt
    have hdne : sqrtQ (Vec2.len2 (c - p.pos)) ≠ 0 := ne_of_gt hd0
    have hvec : c - (c - ((c - p.pos) / sqrtQ (Vec2.len2 (c - p.pos))) *
        (constraint_radius - p.radius)) =
        ((c - p.pos) / sqrtQ (Vec2.len2 (c - p.pos))) *
          (constraint_radius - p.radius) := by
      ext <;> simp
    show Vec2.len2 (c - (c - ((c - p.pos) / sqrtQ (Vec2.len2 (c - p.pos))) *
        (constraint_radius - p.radius))) ≤ _
    rw [hvec]
    have hlen : Vec2.len2 (((c - p.pos) / sqrtQ (Vec2.len2 (c - p.pos))) *
        (constraint_radius - p.radius)) =
        Vec2.len2 (c - p.pos) /
            (sqrtQ (Vec2.len2 (c - p.pos)) * sqrtQ (Vec2.len2 (c - p.pos))) *
          ((constraint_radius - p.radius) * (constraint_radius - p.radius)) := by
      simp only [Vec2.len2, Vec2.smul_x, Vec2.smul_y, Vec2.sdiv_x, Vec2.sdiv_y,
        Vec2.sub_x, Vec2.sub_y]
      field_simp
      ring
    have hlne : Vec2.len2 (c - p.pos) ≠ 0 := hsq ▸ mul_ne_zero hdne hdne
    rw [hlen, hsq, div_self hlne, one_mul]
  · rw [if_neg hgt]
    rw [← hsq]
    exact mul_self_le_mul_self hnn (not_lt.mp hgt)

/-- Claim C3: after `apply_constraints`, every particle of radius below the
boundary radius 300 lies within the band — the squared distance from the
boundary center is at most `(300 - radius)²` — and a particle found outside
that band is clamped onto `center - unit(center - pos) * (300 - radius)`.
The two square-root hypotheses state that the oracle is exact and
nonnegative at the values where the source takes a length. -/
theorem apply_constraints_containment (sqrtQ : ℚ → ℚ) (m : Model)
    (hr : ∀ p ∈ m.particles, p.radius < constraint_radius)
    (hs : ∀ p ∈ m.particles,
      sqrtQ (Vec2.len2 (m.center - p.pos)) * sqrtQ (Vec2.len2 (m.center - p.pos)) =
          Vec2.len2 (m.center - p.pos) ∧
        0 ≤ sqrtQ (Vec2.len2 (m.center - p.pos))) :
    (∀ q ∈ (Model.apply_constraints sqrtQ m).particles,
      Vec2.len2 (m.center - q.pos) ≤
        (constraint_radius - q.radius) * (constraint_radius - q.radius)) ∧
    (∀ p ∈ m.particles,
      Vec2.len sqrtQ (m.center - p.pos) > constraint_radius - p.radius →
        (Model.constrain sqrtQ m.center p).pos =
          m.center - ((m.center - p.pos) / Vec2.len sqrtQ (m.center - p.pos)) *
            (constraint_radius - p.radius)) := by
  constructor
  · intro q hq
    simp only [Model.apply_constraints, List.mem_map] at hq
    obtain ⟨p, hp, rfl⟩ := hq
    have hrad : (Model.constrain sqrtQ m.center p).radius = p.radius := by
      simp only [Model.constrain]
      split <;> rfl
    rw [hrad]
    exact constrain_len2_le sqrtQ m.center p (hr p hp) (hs p hp).1 (hs p hp).2
  · intro p hp hgt
    simp only [Model.constrain, Vec2.len] at hgt ⊢
    rw [if_pos hgt]

/-- Square-root oracle for the C3 witness, exact at the one value used. -/
def c3sqrt : ℚ → ℚ := fun q => if q = 160000 then 400 else 0

/-- Concrete model for the C3 witness: one default particle at (400, 0),
outside the boundary band of a boundary centered at the origin. -/
def c3model : Model :=
  { particles := [Particle.new ⟨400, 0⟩], gravity := ⟨0, -1000⟩,
    center := ⟨0, 0⟩, last_push := 0, mouse_pressed := false }

/-- Witness for C3: the containment theorem applied to `c3model`, with both
hypotheses checked by evaluation. -/
theorem apply_constraints_containment_witness :
    (∀ q ∈ (Model.apply_constraints c3sqrt c3model).particles,
      Vec2.len2 (c3model.center - q.pos) ≤
        (constraint_radius - q.radius) * (constraint_radius - q.radius)) ∧
    (∀ p ∈ c3model.particles,
      Vec2.len c3sqrt (c3model.center - p.pos) > constraint_radius - p.radius →
        (Model.constrain c3sqrt c3model.center p).pos =
          c3model.center -
            ((c3model.center - p.pos) / Vec2.len c3sqrt (c3model.center - p.pos)) *
              (constraint_radius - p.radius)) :=
  apply_constraints_containment c3sqrt c3model (by decide)
    (by
      intro p hp
      rw [show c3model.particles = [Particle.new ⟨400, 0⟩] from rfl,
        List.mem_singleton] at hp
      subst hp
      norm_num [c3sqrt, c3model, Particle.new, Vec2.len2])

/-- Claim C5: one `solve_collisions` pass over exactly two overlapping
particles of equal radius moves them by equal and opposite displacements
along the common normal, so the midpoint of the two centers is unchanged. -/
theorem solve_collisions_symmetric (sqrtQ : ℚ → ℚ) (p0 p1 : Particle)
    (g c : Vec2) (t : ℕ) (mp : Bool) (hr : p0.radius = p1.radius)
    (hov : (p0.pos - p1.pos).x * (p0.pos - p1.pos).x +
        (p0.pos - p1.pos).y * (p0.pos - p1.pos).y <
      (p0.radius + p1.radius + 2) * (p0.radius + p1.radius + 2)) :
    ∃ q0 q1 : Particle,
      (Model.solve_collisions sqrtQ
          { particles := [p0, p1], gravity := g, center := c,
            last_push := t, mouse_pressed := mp }).particles = [q0, q1] ∧
      q0.pos - p0.pos = -(q1.pos - p1.pos) ∧
      (q0.pos + q1.pos) / (2 : ℚ) = (p0.pos + p1.pos) / (2 : ℚ) := by
  simp only [Model.solve_collisions, List.length_cons, List.length_nil,
    collide_outer, collide_inner]
  rw [if_pos hov]
  simp only [collide_outer, collide_inner]
  refine ⟨_, _, rfl, ?_, ?_⟩
  · ext <;> simp only [Vec2.sub_x, Vec2.sub_y, Vec2.neg_x, Vec2.neg_y,
      Vec2.add_x, Vec2.add_y, Vec2.smul_x, Vec2.smul_y, Vec2.sdiv_x,
      Vec2.sdiv_y] <;> rw [hr] <;> ring
  · ext <;> simp only [Vec2.sub_x, Vec2.sub_y, Vec2.neg_x, Vec2.neg_y,
      Vec2.add_x, Vec2.add_y, Vec2.smul_x, Vec2.smul_y, Vec2.sdiv_x,
      Vec2.sdiv_y] <;> rw [hr] <;> ring

/-- Witness for C5: two default-radius particles at (0,0) and (10,0)
overlap; one collision pass splits them symmetrically about their
midpoint. -/
theorem solve_collisions_symmetric_witness :
    ∃ q0 q1 : Particle,
      (Model.solve_collisions (fun q => if q = 100 then 10 else 0)
          { particles := [Particle.new ⟨0, 0⟩, Particle.new ⟨10, 0⟩],
            gravity := ⟨0, -1000⟩, center := ⟨0, 0⟩, last_push := 0,
            mouse_pressed := false }).particles = [q0, q1] ∧
      q0.pos - (Particle.new ⟨0, 0⟩).pos =
        -(q1.pos - (Particle.new ⟨10, 0⟩).pos) ∧
      (q0.pos + q1.pos) / (2 : ℚ) =
        ((Particle.new ⟨0, 0⟩).pos + (Particle.new ⟨10, 0⟩).pos) / (2 : ℚ) :=
  solve_collisions_symmetric (fun q => if q = 100 then 10 else 0)
    (Particle.new ⟨0, 0⟩) (Particle.new ⟨10, 0⟩) ⟨0, -1000⟩ ⟨0, 0⟩ 0 false
    rfl (by norm_num [Particle.new])

/-- Claim C4 is refuted by the code: `solve_collisions` has no guard for
coincident centers.  For two particles at the same point the squared
distance 0 passes the overlap test `dist2 < min_dist * min_dist`, so the
normalization `v / dist` at line 98 is executed with divisor
`sqrt 0 = 0` (in `f32` this produces NaN and corrupts both positions).
The zero-divisor checker, evaluated at that state with a square-root
oracle that is exact at 0, reports the division by zero. -/
theorem solve_collisions_zero_division_hit :
    Model.solve_collisions_zero_div (fun q => if q ≤ 0 then 0 else 1)
      { particles := [Particle.new ⟨0, 0⟩, Particle.new ⟨0, 0⟩],
        gravity := ⟨0, -1000⟩, center := ⟨0, 0⟩, last_push := 0,
        mouse_pressed := false } = true := by
  norm_num [Model.solve_collisions_zero_div, collide_outer_zero_div,
    collide_inner_zero_div, Particle.new]
